import Mathlib

/-!
Verification of the Zillow ZORI city-filtering utility (clean.py).

The program is a single-pass CSV transformer: it reads a header and data
rows, filters rows whose normalized RegionName is in a normalized target
city set, and either passes rows through (wide mode) or pivots the date
columns into (Date, Value) pairs (long mode).

Embedding conventions: a text string is a list of Unicode code points
(List Nat); a row is a list of fields (List (List Nat)).  Python str.split
with no argument, str.strip, str.lower and str.join are modelled on code
points; lowercasing is modelled on the ASCII letter range, and whitespace
as the six ASCII whitespace code points recognised by Python.
-/

/-- Code points of a Lean string literal, used to write concrete inputs. -/
def strN (s : String) : List Nat := s.data.map Char.toNat

/-- The ASCII whitespace code points that Python str.split and str.strip
treat as separators: space, tab, LF, VT, FF, CR. -/
def isSpaceN (c : Nat) : Bool :=
  c == 32 || c == 9 || c == 10 || c == 11 || c == 12 || c == 13

/-- ASCII lowercasing of one code point, as Python str.lower does on
ASCII letters. -/
def lowerChar (c : Nat) : Nat :=
  if 65 ≤ c ∧ c ≤ 90 then c + 32 else c

/-- Worker for Python str.split with no argument: accumulates the current
(reversed) token in acc and emits maximal nonempty runs of non-whitespace. -/
def splitWSAux : List Nat → List Nat → List (List Nat)
  | [], acc => if acc = [] then [] else [acc.reverse]
  | c :: cs, acc =>
    if isSpaceN c then
      if acc = [] then splitWSAux cs [] else acc.reverse :: splitWSAux cs []
    else
      splitWSAux cs (c :: acc)

/-- Python name.split(): the maximal whitespace-free nonempty tokens. -/
def splitWS (s : List Nat) : List (List Nat) := splitWSAux s []

/-- Python " ".join(tokens): tokens interleaved with single spaces (32). -/
def joinWS : List (List Nat) → List Nat
  | [] => []
  | [t] => t
  | t :: u :: ts => t ++ 32 :: joinWS (u :: ts)

/-- Remove trailing whitespace (the right half of Python str.strip). -/
def dropTrailingWS (s : List Nat) : List Nat :=
  (s.reverse.dropWhile isSpaceN).reverse

/-- Python name.strip(): drop leading and trailing whitespace. -/
def stripWS (s : List Nat) : List Nat :=
  dropTrailingWS (s.dropWhile isSpaceN)

/-- clean.py normalize_city:
return " ".join(name.strip().split()).lower() -/
def normalize_city (s : List Nat) : List Nat :=
  (joinWS (splitWS (stripWS s))).map lowerChar

/-- The header name of the key column, "RegionName". -/
def regionNameCol : List Nat := strN "RegionName"

/-- The header name "CountyName" used to locate the date columns. -/
def countyNameCol : List Nat := strN "CountyName"

/-- The normalized misspelled key in the correction map. -/
def sanMarcocKey : List Nat := strN "san marcoc"

/-- The corrected normalized city name. -/
def sanMarcosKey : List Nat := strN "san marcos"

/-- Output column title "Date" used in long mode. -/
def dateColTitle : List Nat := strN "Date"

/-- Output column title "Value" used in long mode. -/
def valueColTitle : List Nat := strN "Value"

/-- clean.py city_map = {"san marcoc": "san marcos"}; city_map.get(key, key). -/
def cityMapGet (key : List Nat) : List Nat :=
  if key = sanMarcocKey then sanMarcosKey else key

/-- Building the target city collection from the caller-supplied city names:
each name is normalized and then passed through the correction map.  The
Python set is modelled as the list of its inserted elements; only
membership in it is ever consulted. -/
def buildTargets (cities : List (List Nat)) : List (List Nat) :=
  cities.map (fun city => cityMapGet (normalize_city city))

/-- clean.py date-column pattern: len(col) == 10 and col[4] == "-" and
col[7] == "-"  (45 is the code point of the dash). -/
def isDateCol (col : List Nat) : Bool :=
  col.length == 10 && col.getD 4 0 == 45 && col.getD 7 0 == 45

/-- Resolution of date_start in long mode: index of "CountyName" plus one
when that column exists, else the index of the first column matching the
date pattern, else failure. -/
def resolveDateStart (header : List (List Nat)) : Option Nat :=
  match header.findIdx? (fun col => col == countyNameCol) with
  | some i => some (i + 1)
  | none => header.findIdx? isDateCol

/-- The per-row keep decision of the main loop: skip the row when
region_idx >= len(row), otherwise keep it iff the normalized key cell is
in the target set. -/
def rowKept (regionIdx : Nat) (targets : List (List Nat))
    (row : List (List Nat)) : Bool :=
  if regionIdx < row.length then
    targets.contains (normalize_city (row.getD regionIdx []))
  else
    false

/-- One date column of one kept row in long mode:
value = row[i] if i < len(row) else ""; skipped when value is empty,
otherwise the output row is row[:date_start] + [header[i], value]. -/
def columnEmit (header : List (List Nat)) (dateStart : Nat)
    (row : List (List Nat)) (i : Nat) : Option (List (List Nat)) :=
  let value := if i < row.length then row.getD i [] else []
  if value = [] then none
  else some (row.take dateStart ++ [header.getD i [], value])

/-- All output rows one kept row produces in long mode, over the column
indices range(date_start, len(header)) in header order. -/
def longRows (header : List (List Nat)) (dateStart : Nat)
    (row : List (List Nat)) : List (List (List Nat)) :=
  ((List.range header.length).drop dateStart).filterMap
    (columnEmit header dateStart row)

/-- The output rows one kept row produces: its long-mode pivot in long
mode, the row itself verbatim in wide mode. -/
def emitRows (longMode : Bool) (header : List (List Nat)) (dateStart : Nat)
    (row : List (List Nat)) : List (List (List Nat)) :=
  if longMode then longRows header dateStart row else [row]

/-- The main row loop: returns (output rows, kept counter, total counter).
total is incremented for every data row; kept and the output only for rows
that pass the keep decision. -/
def processRows (longMode : Bool) (regionIdx dateStart : Nat)
    (header targets : List (List Nat)) :
    List (List (List Nat)) → List (List (List Nat)) × Nat × Nat
  | [] => ([], 0, 0)
  | row :: rest =>
    if rowKept regionIdx targets row then
      (emitRows longMode header dateStart row ++
        (processRows longMode regionIdx dateStart header targets rest).1,
       (processRows longMode regionIdx dateStart header targets rest).2.1 + 1,
       (processRows longMode regionIdx dateStart header targets rest).2.2 + 1)
    else
      ((processRows longMode regionIdx dateStart header targets rest).1,
       (processRows longMode regionIdx dateStart header targets rest).2.1,
       (processRows longMode regionIdx dateStart header targets rest).2.2 + 1)

/-- What a finished run leaves behind: the written header, the written
data rows, the two counters, and the printed summary line. -/
structure RunResult where
  outHeader : List (List Nat)
  outRows : List (List (List Nat))
  kept : Nat
  total : Nat
  summary : List Nat
deriving DecidableEq

/-- Message of the SystemExit raised when RegionName is missing. -/
def errNoRegion : List Nat := strN "Column RegionName not found in CSV header."

/-- Message of the SystemExit raised when long mode finds no date columns. -/
def errNoDate : List Nat := strN "Could not locate date columns in CSV header."

/-- The printed summary:
f"Filtered \x7bkept\x7d rows out of \x7btotal\x7d. Output: \x7boutput_path\x7d" -/
def summaryLine (kept total : Nat) (outputPath : List Nat) : List Nat :=
  strN "Filtered " ++ strN (toString kept) ++ strN " rows out of " ++
    strN (toString total) ++ strN ". Output: " ++ outputPath

/-- The whole of main after argument parsing, as a pure function of the
mode flag, the city list, the output path, the parsed header and the
parsed data rows.  SystemExit aborts are the error branch. -/
def runMain (longMode : Bool) (cities : List (List Nat))
    (outputPath : List Nat) (header : List (List Nat))
    (rows : List (List (List Nat))) : Except (List Nat) RunResult :=
  match header.findIdx? (fun col => col == regionNameCol) with
  | none => Except.error errNoRegion
  | some regionIdx =>
    let targets := buildTargets cities
    if longMode then
      match resolveDateStart header with
      | none => Except.error errNoDate
      | some dateStart =>
        let r := processRows true regionIdx dateStart header targets rows
        Except.ok ⟨header.take dateStart ++ [dateColTitle, valueColTitle],
          r.1, r.2.1, r.2.2, summaryLine r.2.1 r.2.2 outputPath⟩
    else
      let r := processRows false regionIdx 0 header targets rows
      Except.ok ⟨header, r.1, r.2.1, r.2.2,
        summaryLine r.2.1 r.2.2 outputPath⟩

/-- Process exit code: main returns 0 on success, a SystemExit with a
message exits nonzero. -/
def runExit : Except (List Nat) RunResult → Nat
  | Except.ok _ => 0
  | Except.error _ => 1

/-! ## Concrete inputs used to instantiate the theorems -/

/-- Example input header: RegionName,CountyName,2020-01-31,2020-02-29. -/
def exHeader : List (List Nat) :=
  [strN "RegionName", strN "CountyName", strN "2020-01-31", strN "2020-02-29"]

/-- Example data row: Austin,Travis,1500,1520. -/
def exRow : List (List Nat) :=
  [strN "Austin", strN "Travis", strN "1500", strN "1520"]

/-- Example target city list. -/
def exCities : List (List Nat) := [strN "Austin"]

/-- The default output path of the program. -/
def exPath : List Nat := strN "data/cleaned_zillow_zori_city.csv"

/-- The wide-mode result on the example input. -/
def exResWide : RunResult :=
  ⟨exHeader, [exRow], 1, 1, summaryLine 1 1 exPath⟩

/-- The long-mode result on the example input. -/
def exResLong : RunResult :=
  ⟨[strN "RegionName", strN "CountyName", dateColTitle, valueColTitle],
   [[strN "Austin", strN "Travis", strN "2020-01-31", strN "1500"],
    [strN "Austin", strN "Travis", strN "2020-02-29", strN "1520"]],
   1, 1, summaryLine 1 1 exPath⟩

/-! ## Helper lemmas about whitespace splitting and lowercasing -/

/-- Lowercasing never turns a non-whitespace code point into whitespace. -/
lemma isSpaceN_lowerChar (c : Nat) (h : isSpaceN c = false) :
    isSpaceN (lowerChar c) = false := by
  unfold lowerChar
  split
  · simp only [isSpaceN, Bool.or_eq_false_iff, beq_eq_false_iff_ne, ne_eq]
    omega
  · exact h

/-- ASCII lowercasing is idempotent on code points. -/
lemma lowerChar_idem (c : Nat) : lowerChar (lowerChar c) = lowerChar c := by
  by_cases h : 65 ≤ c ∧ c ≤ 90
  · simp only [lowerChar, if_pos h]
    rw [if_neg (by omega)]
  · simp only [lowerChar, if_neg h]

/-- Every token the split worker produces is nonempty and whitespace-free,
provided the accumulator holds only non-whitespace code points. -/
lemma splitWSAux_tokens (s : List Nat) : ∀ (acc : List Nat),
    (∀ c ∈ acc, isSpaceN c = false) →
    ∀ t ∈ splitWSAux s acc, t ≠ [] ∧ ∀ c ∈ t, isSpaceN c = false := by
  induction s with
  | nil =>
    intro acc hacc t ht
    simp only [splitWSAux] at ht
    split at ht
    · simp at ht
    · rename_i hne
      simp only [List.mem_singleton] at ht
      subst ht
      refine ⟨by simpa using hne, ?_⟩
      intro c hc
      exact hacc c (List.mem_reverse.mp hc)
  | cons c cs ih =>
    intro acc hacc t ht
    simp only [splitWSAux] at ht
    split at ht
    · split at ht
      · exact ih [] (by simp) t ht
      · rename_i hsp hne
        rcases List.mem_cons.mp ht with rfl | ht2
        · refine ⟨by simpa using hne, ?_⟩
          intro d hd
          exact hacc d (List.mem_reverse.mp hd)
        · exact ih [] (by simp) t ht2
    · rename_i hsp
      refine ih (c :: acc) ?_ t ht
      intro d hd
      rcases List.mem_cons.mp hd with rfl | hd2
      · simpa using hsp
      · exact hacc d hd2

/-- Unfolding step of the split worker at a non-whitespace code point. -/
lemma splitWSAux_cons_nonspace (c : Nat) (hc : isSpaceN c = false)
    (cs acc : List Nat) :
    splitWSAux (c :: cs) acc = splitWSAux cs (c :: acc) := by
  simp [splitWSAux, hc]

/-- Unfolding step of the split worker at a whitespace code point. -/
lemma splitWSAux_cons_space (c : Nat) (hc : isSpaceN c = true)
    (cs acc : List Nat) :
    splitWSAux (c :: cs) acc =
      if acc = [] then splitWSAux cs [] else acc.reverse :: splitWSAux cs [] := by
  simp [splitWSAux, hc]

/-- Consuming a whitespace-free token prepends its reversal to the
accumulator. -/
lemma splitWSAux_append_token :
    ∀ (t : List Nat), (∀ c ∈ t, isSpaceN c = false) →
    ∀ (s acc : List Nat),
      splitWSAux (t ++ s) acc = splitWSAux s (t.reverse ++ acc)
  | [], _, s, acc => by simp
  | c :: cs, ht, s, acc => by
    have hc : isSpaceN c = false := ht c (List.mem_cons_self c cs)
    have ihr := splitWSAux_append_token cs
      (fun d hd => ht d (List.mem_cons_of_mem c hd)) s (c :: acc)
    rw [List.cons_append, splitWSAux_cons_nonspace c hc (cs ++ s) acc, ihr]
    congr 1
    simp

/-- Splitting an all-whitespace list flushes at most the accumulator. -/
lemma splitWSAux_allspace :
    ∀ (w : List Nat), (∀ c ∈ w, isSpaceN c = true) →
    ∀ acc, splitWSAux w acc = if acc = [] then [] else [acc.reverse]
  | [], _, acc => rfl
  | c :: w, hw, acc => by
    have hc : isSpaceN c = true := hw c (List.mem_cons_self c w)
    have ihr := splitWSAux_allspace w
      (fun d hd => hw d (List.mem_cons_of_mem c hd)) []
    simp only [splitWSAux, hc, if_true]
    rw [ihr]
    simp

/-- Trailing whitespace does not change the split. -/
lemma splitWSAux_append_space :
    ∀ (s w : List Nat), (∀ c ∈ w, isSpaceN c = true) →
    ∀ acc, splitWSAux (s ++ w) acc = splitWSAux s acc
  | [], w, hw, acc => by
    rw [List.nil_append, splitWSAux_allspace w hw acc]
    rfl
  | c :: s, w, hw, acc => by
    have ih := splitWSAux_append_space s w hw
    rw [List.cons_append]
    by_cases hc : isSpaceN c = true
    · rw [splitWSAux_cons_space c hc (s ++ w) acc,
        splitWSAux_cons_space c hc s acc]
      by_cases ha : acc = []
      · rw [if_pos ha, if_pos ha]
        exact ih []
      · rw [if_neg ha, if_neg ha, ih []]
    · have hc2 : isSpaceN c = false := by simpa using hc
      rw [splitWSAux_cons_nonspace c hc2 (s ++ w) acc,
        splitWSAux_cons_nonspace c hc2 s acc]
      exact ih (c :: acc)

/-- Leading whitespace does not change the split. -/
lemma splitWSAux_dropWhile :
    ∀ (s : List Nat), splitWSAux (s.dropWhile isSpaceN) [] = splitWSAux s []
  | [] => rfl
  | c :: s => by
    by_cases hc : isSpaceN c = true
    · rw [List.dropWhile_cons_of_pos hc, splitWSAux_dropWhile s]
      simp [splitWSAux, hc]
    · rw [List.dropWhile_cons_of_neg (by simpa using hc)]

/-- Stripping does not change the split: Python name.strip().split() equals
name.split(). -/
lemma splitWS_stripWS (s : List Nat) : splitWS (stripWS s) = splitWS s := by
  unfold stripWS dropTrailingWS splitWS
  have hdecomp :
      ((s.dropWhile isSpaceN).reverse.dropWhile isSpaceN).reverse ++
        ((s.dropWhile isSpaceN).reverse.takeWhile isSpaceN).reverse =
        s.dropWhile isSpaceN := by
    rw [← List.reverse_append, List.takeWhile_append_dropWhile,
      List.reverse_reverse]
  have hw : ∀ c ∈ ((s.dropWhile isSpaceN).reverse.takeWhile isSpaceN).reverse,
      isSpaceN c = true := by
    intro c hc
    rw [List.mem_reverse] at hc
    exact List.mem_takeWhile_imp hc
  calc splitWSAux (((s.dropWhile isSpaceN).reverse.dropWhile isSpaceN).reverse) []
      = splitWSAux
          (((s.dropWhile isSpaceN).reverse.dropWhile isSpaceN).reverse ++
            ((s.dropWhile isSpaceN).reverse.takeWhile isSpaceN).reverse) [] :=
        (splitWSAux_append_space _ _ hw []).symm
    _ = splitWSAux (s.dropWhile isSpaceN) [] := by rw [hdecomp]
    _ = splitWSAux s [] := splitWSAux_dropWhile s

/-- Splitting undoes joining when the tokens are nonempty and
whitespace-free. -/
lemma splitWS_joinWS :
    ∀ (ts : List (List Nat)),
      (∀ t ∈ ts, t ≠ [] ∧ ∀ c ∈ t, isSpaceN c = false) →
      splitWS (joinWS ts) = ts
  | [], _ => rfl
  | [t], h => by
    obtain ⟨hne, hns⟩ := h t (by simp)
    show splitWSAux (joinWS [t]) [] = [t]
    have hj : joinWS [t] = t ++ [] := by simp [joinWS]
    rw [hj, splitWSAux_append_token t hns [] [], List.append_nil]
    show (if t.reverse = [] then [] else [t.reverse.reverse]) = [t]
    rw [if_neg (by simpa using hne), List.reverse_reverse]
  | t :: u :: ts, h => by
    obtain ⟨hne, hns⟩ := h t (by simp)
    have ih := splitWS_joinWS (u :: ts) (fun x hx => h x (List.mem_cons_of_mem t hx))
    show splitWSAux (joinWS (t :: u :: ts)) [] = t :: u :: ts
    have hj : joinWS (t :: u :: ts) = t ++ 32 :: joinWS (u :: ts) := rfl
    rw [hj, splitWSAux_append_token t hns (32 :: joinWS (u :: ts)) [],
      List.append_nil,
      splitWSAux_cons_space 32 rfl (joinWS (u :: ts)) t.reverse,
      if_neg (by simpa using hne), List.reverse_reverse]
    exact congrArg (t :: ·) ih

/-- Lowercasing maps over a join tokenwise: the separator space is fixed. -/
lemma map_lowerChar_joinWS :
    ∀ (ts : List (List Nat)),
      (joinWS ts).map lowerChar = joinWS (ts.map (fun t => t.map lowerChar))
  | [] => rfl
  | [t] => rfl
  | t :: u :: ts => by
    have ih := map_lowerChar_joinWS (u :: ts)
    show (t ++ 32 :: joinWS (u :: ts)).map lowerChar = _
    rw [List.map_append, List.map_cons]
    have h32 : lowerChar 32 = 32 := rfl
    rw [h32, ih]
    rfl

/-! ## Helper lemmas about the main loop -/

/-- The loop equals a filter followed by an emit of each kept row: the
output is the concatenation of the emissions of the kept rows, kept is the
number of kept rows, total the number of input rows. -/
lemma processRows_eq (longMode : Bool) (regionIdx dateStart : Nat)
    (header targets : List (List Nat)) :
    ∀ rows, processRows longMode regionIdx dateStart header targets rows =
      ((rows.filter (rowKept regionIdx targets)).flatMap
         (emitRows longMode header dateStart),
       (rows.filter (rowKept regionIdx targets)).length,
       rows.length)
  | [] => rfl
  | row :: rest => by
    have ih := processRows_eq longMode regionIdx dateStart header targets rest
    simp only [processRows, ih, List.filter_cons]
    by_cases h : rowKept regionIdx targets row = true
    · simp [h, List.flatMap_cons]
    · simp [h]

/-- Wide-mode emission concatenates back to the kept rows themselves. -/
lemma bind_wide_emit (header : List (List Nat)) (l : List (List (List Nat))) :
    (l.flatMap (emitRows false header 0)) = l := by
  induction l with
  | nil => rfl
  | cons a l ih =>
    rw [List.flatMap_cons, ih]
    rfl

/-- A run with a missing RegionName column aborts with the RegionName
error, in either mode, before looking at any data row. -/
lemma runMain_noRegion (longMode : Bool) (cities : List (List Nat))
    (outputPath : List Nat) (header : List (List Nat))
    (rows : List (List (List Nat)))
    (hfind : header.findIdx? (fun col => col == regionNameCol) = none) :
    runMain longMode cities outputPath header rows = Except.error errNoRegion := by
  unfold runMain
  rw [hfind]

/-- Characterization of a successful wide-mode run. -/
lemma runMain_wide (cities : List (List Nat)) (outputPath : List Nat)
    (header : List (List Nat)) (rows : List (List (List Nat)))
    (regionIdx : Nat)
    (hfind : header.findIdx? (fun col => col == regionNameCol) = some regionIdx) :
    runMain false cities outputPath header rows =
      Except.ok ⟨header,
        rows.filter (rowKept regionIdx (buildTargets cities)),
        (rows.filter (rowKept regionIdx (buildTargets cities))).length,
        rows.length,
        summaryLine (rows.filter (rowKept regionIdx (buildTargets cities))).length
          rows.length outputPath⟩ := by
  unfold runMain
  rw [hfind]
  simp only [Bool.false_eq_true, if_false, processRows_eq, bind_wide_emit]

/-- A long-mode run with an unresolvable date boundary aborts with the
date-columns error. -/
lemma runMain_noDate (cities : List (List Nat)) (outputPath : List Nat)
    (header : List (List Nat)) (rows : List (List (List Nat)))
    (regionIdx : Nat)
    (hfind : header.findIdx? (fun col => col == regionNameCol) = some regionIdx)
    (hds : resolveDateStart header = none) :
    runMain true cities outputPath header rows = Except.error errNoDate := by
  unfold runMain
  rw [hfind]
  simp only [if_true]
  rw [hds]

/-- Characterization of a successful long-mode run. -/
lemma runMain_long (cities : List (List Nat)) (outputPath : List Nat)
    (header : List (List Nat)) (rows : List (List (List Nat)))
    (regionIdx dateStart : Nat)
    (hfind : header.findIdx? (fun col => col == regionNameCol) = some regionIdx)
    (hds : resolveDateStart header = some dateStart) :
    runMain true cities outputPath header rows =
      Except.ok ⟨header.take dateStart ++ [dateColTitle, valueColTitle],
        (rows.filter (rowKept regionIdx (buildTargets cities))).flatMap
          (longRows header dateStart),
        (rows.filter (rowKept regionIdx (buildTargets cities))).length,
        rows.length,
        summaryLine (rows.filter (rowKept regionIdx (buildTargets cities))).length
          rows.length outputPath⟩ := by
  unfold runMain
  rw [hfind]
  simp only [if_true]
  rw [hds]
  simp only [processRows_eq]
  rfl

/-- Tokens of a split are nonempty and whitespace-free. -/
lemma splitWS_tokens (s : List Nat) :
    ∀ t ∈ splitWS s, t ≠ [] ∧ ∀ c ∈ t, isSpaceN c = false :=
  fun t ht => splitWSAux_tokens s [] (by simp) t ht

/-- C9: normalize_city is idempotent: normalizing an already normalized
string (trimmed, whitespace-collapsed, lowercased) returns it unchanged. -/
theorem claim_C9_normalize_idempotent (x : List Nat) :
    normalize_city (normalize_city x) = normalize_city x := by
  have htok := splitWS_tokens (stripWS x)
  have htok2 : ∀ t ∈ (splitWS (stripWS x)).map (fun t => t.map lowerChar),
      t ≠ [] ∧ ∀ c ∈ t, isSpaceN c = false := by
    intro t ht
    rcases List.mem_map.mp ht with ⟨u, hu, rfl⟩
    obtain ⟨hne, hns⟩ := htok u hu
    refine ⟨by simpa using hne, ?_⟩
    intro c hc
    rcases List.mem_map.mp hc with ⟨d, hd, rfl⟩
    exact isSpaceN_lowerChar d (hns d hd)
  unfold normalize_city
  rw [splitWS_stripWS ((joinWS (splitWS (stripWS x))).map lowerChar)]
  rw [map_lowerChar_joinWS (splitWS (stripWS x))]
  rw [splitWS_joinWS _ htok2]
  rw [map_lowerChar_joinWS ((splitWS (stripWS x)).map (fun t => t.map lowerChar))]
  congr 1
  rw [List.map_map]
  apply List.map_congr_left
  intro t _
  show (t.map lowerChar).map lowerChar = t.map lowerChar
  rw [List.map_map]
  apply List.map_congr_left
  intro c _
  exact lowerChar_idem c

/-- The keep decision written as one boolean conjunction. -/
lemma rowKept_eq (regionIdx : Nat) (targets : List (List Nat))
    (row : List (List Nat)) :
    rowKept regionIdx targets row =
      (decide (regionIdx < row.length) &&
        targets.contains (normalize_city (row.getD regionIdx []))) := by
  unfold rowKept
  by_cases h : regionIdx < row.length
  · simp [h]
  · simp [h]

/-! ## The claims -/

/-- C1: for every input data row, the row is kept iff the normalization of
its key-column value (at the RegionName index) is in the target city set
built from the caller-supplied names after normalization and misspelling
correction; any row whose field count is at most the RegionName index is
never kept.  Stated on the run: the kept counter counts exactly the rows
satisfying that predicate (in either mode), and in wide mode the output
rows are exactly those rows. -/
theorem claim_C1_keep_iff (longMode : Bool) (cities : List (List Nat))
    (outputPath : List Nat) (header : List (List Nat))
    (rows : List (List (List Nat))) (res : RunResult) (regionIdx : Nat)
    (hfind : header.findIdx? (fun col => col == regionNameCol) = some regionIdx)
    (hrun : runMain longMode cities outputPath header rows = Except.ok res) :
    res.kept = (rows.filter (fun row =>
        decide (regionIdx < row.length) &&
        (buildTargets cities).contains (normalize_city (row.getD regionIdx [])))).length
    ∧ (longMode = false → res.outRows = rows.filter (fun row =>
        decide (regionIdx < row.length) &&
        (buildTargets cities).contains (normalize_city (row.getD regionIdx [])))) := by
  have hpred : (rowKept regionIdx (buildTargets cities)) =
      (fun row : List (List Nat) => decide (regionIdx < row.length) &&
        (buildTargets cities).contains (normalize_city (row.getD regionIdx []))) := by
    funext row
    exact rowKept_eq regionIdx (buildTargets cities) row
  cases longMode with
  | false =>
    rw [runMain_wide cities outputPath header rows regionIdx hfind] at hrun
    injection hrun with h
    subst h
    refine ⟨?_, fun _ => ?_⟩
    · show (rows.filter (rowKept regionIdx (buildTargets cities))).length = _
      rw [hpred]
    · show rows.filter (rowKept regionIdx (buildTargets cities)) = _
      rw [hpred]
  | true =>
    cases hds : resolveDateStart header with
    | none =>
      rw [runMain_noDate cities outputPath header rows regionIdx hfind hds] at hrun
      exact absurd hrun (by simp)
    | some dateStart =>
      rw [runMain_long cities outputPath header rows regionIdx dateStart hfind hds] at hrun
      injection hrun with h
      subst h
      refine ⟨?_, fun hcontra => by simp at hcontra⟩
      show (rows.filter (rowKept regionIdx (buildTargets cities))).length = _
      rw [hpred]

/-- Witness for C1 at the example input. -/
theorem claim_C1_keep_iff_witness :
    exHeader.findIdx? (fun col => col == regionNameCol) = some 0 ∧
    runMain false exCities exPath exHeader [exRow] = Except.ok exResWide ∧
    (exResWide.kept = ([exRow].filter (fun row =>
        decide (0 < row.length) &&
        (buildTargets exCities).contains (normalize_city (row.getD 0 [])))).length
     ∧ (false = false → exResWide.outRows = [exRow].filter (fun row =>
        decide (0 < row.length) &&
        (buildTargets exCities).contains (normalize_city (row.getD 0 []))))) :=
  ⟨by decide, by rfl,
   claim_C1_keep_iff false exCities exPath exHeader [exRow] exResWide 0
     (by decide) (by rfl)⟩

/-- C3: in wide mode the output header is the input header verbatim, the
output rows are exactly the kept input rows, unchanged and in order (a
sublist of the input), and the number of output data rows equals the kept
counter. -/
theorem claim_C3_wide_passthrough (cities : List (List Nat))
    (outputPath : List Nat) (header : List (List Nat))
    (rows : List (List (List Nat))) (res : RunResult) (regionIdx : Nat)
    (hfind : header.findIdx? (fun col => col == regionNameCol) = some regionIdx)
    (hrun : runMain false cities outputPath header rows = Except.ok res) :
    res.outHeader = header ∧
    res.outRows = rows.filter (rowKept regionIdx (buildTargets cities)) ∧
    List.Sublist res.outRows rows ∧
    res.outRows.length = res.kept := by
  rw [runMain_wide cities outputPath header rows regionIdx hfind] at hrun
  injection hrun with h
  subst h
  exact ⟨rfl, rfl, List.filter_sublist rows, rfl⟩

/-- Witness for C3 at the example input. -/
theorem claim_C3_wide_passthrough_witness :
    exHeader.findIdx? (fun col => col == regionNameCol) = some 0 ∧
    runMain false exCities exPath exHeader [exRow] = Except.ok exResWide ∧
    (exResWide.outHeader = exHeader ∧
     exResWide.outRows = [exRow].filter (rowKept 0 (buildTargets exCities)) ∧
     List.Sublist exResWide.outRows [exRow] ∧
     exResWide.outRows.length = exResWide.kept) :=
  ⟨by decide, by rfl,
   claim_C3_wide_passthrough exCities exPath exHeader [exRow] exResWide 0
     (by decide) (by rfl)⟩

/-- C4: date_start resolution order in long mode: a column exactly equal
to "CountyName" gives its index plus one; otherwise the first column of
length 10 with dashes at positions 4 and 7 gives its index; if neither
applies the run fails fatally; and a successful long run uses the one
resolved value both for the output header and for the pivot of every row. -/
theorem claim_C4_date_start_resolution :
    (∀ (header : List (List Nat)) (i : Nat),
       header.findIdx? (fun col => col == countyNameCol) = some i →
       resolveDateStart header = some (i + 1)) ∧
    (∀ header : List (List Nat),
       header.findIdx? (fun col => col == countyNameCol) = none →
       resolveDateStart header = header.findIdx?
         (fun col => col.length == 10 && col.getD 4 0 == 45 && col.getD 7 0 == 45)) ∧
    (∀ (cities : List (List Nat)) (outputPath : List Nat)
       (header : List (List Nat)) (rows : List (List (List Nat))) (regionIdx : Nat),
       header.findIdx? (fun col => col == regionNameCol) = some regionIdx →
       resolveDateStart header = none →
       runMain true cities outputPath header rows = Except.error errNoDate ∧
       runExit (runMain true cities outputPath header rows) ≠ 0) ∧
    (∀ (cities : List (List Nat)) (outputPath : List Nat)
       (header : List (List Nat)) (rows : List (List (List Nat)))
       (regionIdx dateStart : Nat),
       header.findIdx? (fun col => col == regionNameCol) = some regionIdx →
       resolveDateStart header = some dateStart →
       runMain true cities outputPath header rows =
         Except.ok ⟨header.take dateStart ++ [dateColTitle, valueColTitle],
           (rows.filter (rowKept regionIdx (buildTargets cities))).flatMap
             (longRows header dateStart),
           (rows.filter (rowKept regionIdx (buildTargets cities))).length,
           rows.length,
           summaryLine (rows.filter (rowKept regionIdx (buildTargets cities))).length
             rows.length outputPath⟩) := by
  refine ⟨?_, ?_, ?_, ?_⟩
  · intro header i h
    unfold resolveDateStart
    rw [h]
  · intro header h
    unfold resolveDateStart
    rw [h]
    rfl
  · intro cities outputPath header rows regionIdx hfind hds
    have herr := runMain_noDate cities outputPath header rows regionIdx hfind hds
    refine ⟨herr, ?_⟩
    rw [herr]
    simp [runExit]
  · intro cities outputPath header rows regionIdx dateStart hfind hds
    exact runMain_long cities outputPath header rows regionIdx dateStart hfind hds

/-- Witness for C4: a header with CountyName, a header matching only the
date pattern, and a header with neither. -/
theorem claim_C4_date_start_resolution_witness :
    (exHeader.findIdx? (fun col => col == countyNameCol) = some 1 ∧
     resolveDateStart exHeader = some 2) ∧
    ([strN "RegionName", strN "2020-01-31"].findIdx?
        (fun col => col == countyNameCol) = none ∧
     resolveDateStart [strN "RegionName", strN "2020-01-31"] =
       [strN "RegionName", strN "2020-01-31"].findIdx?
         (fun col => col.length == 10 && col.getD 4 0 == 45 && col.getD 7 0 == 45)) ∧
    ([strN "RegionName"].findIdx? (fun col => col == regionNameCol) = some 0 ∧
     resolveDateStart [strN "RegionName"] = none ∧
     runMain true exCities exPath [strN "RegionName"] [exRow] =
       Except.error errNoDate) :=
  ⟨⟨by decide, claim_C4_date_start_resolution.1 exHeader 1 (by decide)⟩,
   ⟨by decide, claim_C4_date_start_resolution.2.1
      [strN "RegionName", strN "2020-01-31"] (by decide)⟩,
   ⟨by decide, by decide,
    (claim_C4_date_start_resolution.2.2.1 exCities exPath [strN "RegionName"]
      [exRow] 0 (by decide) (by decide)).1⟩⟩

/-- C5: a header without a column exactly named "RegionName" makes the run
abort with the RegionName error, whatever the mode and the data rows; a
header with it never produces that abort, and in wide mode the run
succeeds. -/
theorem claim_C5_region_name_required :
    (∀ (longMode : Bool) (cities : List (List Nat)) (outputPath : List Nat)
       (header : List (List Nat)) (rows : List (List (List Nat))),
       header.findIdx? (fun col => col == regionNameCol) = none →
       runMain longMode cities outputPath header rows = Except.error errNoRegion ∧
       runExit (runMain longMode cities outputPath header rows) ≠ 0) ∧
    (∀ (longMode : Bool) (cities : List (List Nat)) (outputPath : List Nat)
       (header : List (List Nat)) (rows : List (List (List Nat))) (regionIdx : Nat),
       header.findIdx? (fun col => col == regionNameCol) = some regionIdx →
       runMain longMode cities outputPath header rows ≠ Except.error errNoRegion) ∧
    (∀ (cities : List (List Nat)) (outputPath : List Nat)
       (header : List (List Nat)) (rows : List (List (List Nat))) (regionIdx : Nat),
       header.findIdx? (fun col => col == regionNameCol) = some regionIdx →
       ∃ res, runMain false cities outputPath header rows = Except.ok res) := by
  refine ⟨?_, ?_, ?_⟩
  · intro longMode cities outputPath header rows hfind
    have herr := runMain_noRegion longMode cities outputPath header rows hfind
    refine ⟨herr, ?_⟩
    rw [herr]
    simp [runExit]
  · intro longMode cities outputPath header rows regionIdx hfind
    cases longMode with
    | false =>
      rw [runMain_wide cities outputPath header rows regionIdx hfind]
      simp
    | true =>
      cases hds : resolveDateStart header with
      | none =>
        rw [runMain_noDate cities outputPath header rows regionIdx hfind hds]
        intro h
        injection h with h2
        exact absurd h2 (by decide)
      | some dateStart =>
        rw [runMain_long cities outputPath header rows regionIdx dateStart hfind hds]
        simp
  · intro cities outputPath header rows regionIdx hfind
    exact ⟨_, runMain_wide cities outputPath header rows regionIdx hfind⟩

/-- Witness for C5: a header lacking RegionName aborts; the example
header does not. -/
theorem claim_C5_region_name_required_witness :
    ([strN "Region", strN "CountyName"].findIdx?
        (fun col => col == regionNameCol) = none ∧
     runMain false exCities exPath [strN "Region", strN "CountyName"] [exRow] =
       Except.error errNoRegion) ∧
    (exHeader.findIdx? (fun col => col == regionNameCol) = some 0 ∧
     runMain false exCities exPath exHeader [exRow] ≠ Except.error errNoRegion) :=
  ⟨⟨by decide,
    (claim_C5_region_name_required.1 false exCities exPath
      [strN "Region", strN "CountyName"] [exRow] (by decide)).1⟩,
   ⟨by decide,
    claim_C5_region_name_required.2.1 false exCities exPath exHeader [exRow] 0
      (by decide)⟩⟩

/-- C6: the misspelling map is applied to caller-supplied names only,
after normalization, before building the target set: each supplied city
contributes cityMapGet of its normalization; supplying "San Marcoc" makes
the target set contain exactly "san marcos"; the key cell of a row is compared
by its bare normalization (no map), so a row normalizing to "san marcos"
is kept under the misspelled argument. -/
theorem claim_C6_misspelling_correction :
    (∀ city : List Nat, buildTargets [city] = [cityMapGet (normalize_city city)]) ∧
    buildTargets [strN "San Marcoc"] = [sanMarcosKey] ∧
    (∀ (cities : List (List Nat)) (regionIdx : Nat) (row : List (List Nat)),
       regionIdx < row.length →
       rowKept regionIdx (buildTargets cities) row =
         (buildTargets cities).contains (normalize_city (row.getD regionIdx []))) ∧
    (∀ (regionIdx : Nat) (row : List (List Nat)),
       regionIdx < row.length →
       normalize_city (row.getD regionIdx []) = sanMarcosKey →
       rowKept regionIdx (buildTargets [strN "San Marcoc"]) row = true) := by
  refine ⟨fun city => rfl, by rfl, ?_, ?_⟩
  · intro cities regionIdx row h
    unfold rowKept
    rw [if_pos h]
  · intro regionIdx row h hnorm
    unfold rowKept
    rw [if_pos h, hnorm]
    rfl

/-- Witness for C6: a row whose RegionName cell is " SAN   MARCOS " is
kept when the caller supplies the misspelled "San Marcoc". -/
theorem claim_C6_misspelling_correction_witness :
    (0 < [strN " SAN   MARCOS "].length) ∧
    normalize_city ([strN " SAN   MARCOS "].getD 0 []) = sanMarcosKey ∧
    rowKept 0 (buildTargets [strN "San Marcoc"]) [strN " SAN   MARCOS "] = true :=
  ⟨by decide, by decide,
   claim_C6_misspelling_correction.2.2.2 0 [strN " SAN   MARCOS "]
     (by decide) (by decide)⟩

/-- C7: ragged rows never fault: a row lacking the key cell is skipped
(not kept) while the loop still counts it and continues; a date cell
beyond the end of the row acts as the empty string and emits nothing; a run
that passes the header checks terminates normally, its total counting
every input row however short. -/
theorem claim_C7_ragged_rows_safe :
    (∀ (regionIdx : Nat) (targets row : List (List Nat)),
       row.length ≤ regionIdx → rowKept regionIdx targets row = false) ∧
    (∀ (header : List (List Nat)) (dateStart : Nat) (row : List (List Nat)) (i : Nat),
       row.length ≤ i → columnEmit header dateStart row i = none) ∧
    (∀ (longMode : Bool) (regionIdx dateStart : Nat)
       (header targets : List (List Nat)) (row : List (List Nat))
       (rest : List (List (List Nat))),
       row.length ≤ regionIdx →
       processRows longMode regionIdx dateStart header targets (row :: rest) =
         ((processRows longMode regionIdx dateStart header targets rest).1,
          (processRows longMode regionIdx dateStart header targets rest).2.1,
          (processRows longMode regionIdx dateStart header targets rest).2.2 + 1)) ∧
    (∀ (longMode : Bool) (cities : List (List Nat)) (outputPath : List Nat)
       (header : List (List Nat)) (rows : List (List (List Nat))) (res : RunResult),
       runMain longMode cities outputPath header rows = Except.ok res →
       res.total = rows.length) := by
  have hskip : ∀ (regionIdx : Nat) (targets row : List (List Nat)),
      row.length ≤ regionIdx → rowKept regionIdx targets row = false := by
    intro regionIdx targets row h
    unfold rowKept
    rw [if_neg (by omega)]
  refine ⟨hskip, ?_, ?_, ?_⟩
  · intro header dateStart row i h
    unfold columnEmit
    rw [if_neg (show ¬ i < row.length by omega)]
    rfl
  · intro longMode regionIdx dateStart header targets row rest h
    simp only [processRows, hskip regionIdx targets row h, Bool.false_eq_true,
      if_false]
  · intro longMode cities outputPath header rows res hrun
    cases hfind : header.findIdx? (fun col => col == regionNameCol) with
    | none =>
      rw [runMain_noRegion longMode cities outputPath header rows hfind] at hrun
      exact absurd hrun (by simp)
    | some regionIdx =>
      cases longMode with
      | false =>
        rw [runMain_wide cities outputPath header rows regionIdx hfind] at hrun
        injection hrun with h2
        subst h2
        rfl
      | true =>
        cases hds : resolveDateStart header with
        | none =>
          rw [runMain_noDate cities outputPath header rows regionIdx hfind hds] at hrun
          exact absurd hrun (by simp)
        | some dateStart =>
          rw [runMain_long cities outputPath header rows regionIdx dateStart
            hfind hds] at hrun
          injection hrun with h2
          subst h2
          rfl

/-- Witness for C7: the empty row has no cell at the key index 0 and is
skipped; index 5 is beyond the example row and emits nothing; a run over
a ragged row still succeeds and counts it. -/
theorem claim_C7_ragged_rows_safe_witness :
    (([] : List (List Nat)).length ≤ 0 ∧
     rowKept 0 (buildTargets exCities) [] = false) ∧
    (exRow.length ≤ 5 ∧ columnEmit exHeader 2 exRow 5 = none) ∧
    (runMain false exCities exPath exHeader [([] : List (List Nat))] =
       Except.ok ⟨exHeader, [], 0, 1, summaryLine 0 1 exPath⟩ ∧
     (⟨exHeader, [], 0, 1, summaryLine 0 1 exPath⟩ : RunResult).total =
       [([] : List (List Nat))].length) :=
  ⟨⟨by decide, claim_C7_ragged_rows_safe.1 0 (buildTargets exCities) [] (by decide)⟩,
   ⟨by decide, claim_C7_ragged_rows_safe.2.1 exHeader 2 exRow 5 (by decide)⟩,
   ⟨by rfl, claim_C7_ragged_rows_safe.2.2.2 false exCities exPath exHeader
      [([] : List (List Nat))] ⟨exHeader, [], 0, 1, summaryLine 0 1 exPath⟩
      (by rfl)⟩⟩

/-- C8: on a successful run the reported total equals the number of input
data rows, the reported kept count equals the number of kept rows, the
summary line ends with the resolved output path, and the exit code is 0. -/
theorem claim_C8_summary_report (longMode : Bool) (cities : List (List Nat))
    (outputPath : List Nat) (header : List (List Nat))
    (rows : List (List (List Nat))) (res : RunResult)
    (hrun : runMain longMode cities outputPath header rows = Except.ok res) :
    res.total = rows.length ∧
    (∃ regionIdx, header.findIdx? (fun col => col == regionNameCol) = some regionIdx ∧
       res.kept = (rows.filter (rowKept regionIdx (buildTargets cities))).length) ∧
    (∃ pre, res.summary = pre ++ outputPath) ∧
    runExit (runMain longMode cities outputPath header rows) = 0 := by
  cases hfind : header.findIdx? (fun col => col == regionNameCol) with
  | none =>
    rw [runMain_noRegion longMode cities outputPath header rows hfind] at hrun
    exact absurd hrun (by simp)
  | some regionIdx =>
    have hexit : runExit (runMain longMode cities outputPath header rows) = 0 := by
      rw [hrun]
      rfl
    cases longMode with
    | false =>
      rw [runMain_wide cities outputPath header rows regionIdx hfind] at hrun
      injection hrun with h2
      subst h2
      exact ⟨rfl, ⟨regionIdx, rfl, rfl⟩, ⟨_, rfl⟩, hexit⟩
    | true =>
      cases hds : resolveDateStart header with
      | none =>
        rw [runMain_noDate cities outputPath header rows regionIdx hfind hds] at hrun
        exact absurd hrun (by simp)
      | some dateStart =>
        rw [runMain_long cities outputPath header rows regionIdx dateStart
          hfind hds] at hrun
        injection hrun with h2
        subst h2
        exact ⟨rfl, ⟨regionIdx, rfl, rfl⟩, ⟨_, rfl⟩, hexit⟩

/-- Witness for C8 at the example input. -/
theorem claim_C8_summary_report_witness :
    runMain false exCities exPath exHeader [exRow] = Except.ok exResWide ∧
    (exResWide.total = [exRow].length ∧
     (∃ regionIdx, exHeader.findIdx? (fun col => col == regionNameCol) = some regionIdx ∧
        exResWide.kept = ([exRow].filter (rowKept regionIdx (buildTargets exCities))).length) ∧
     (∃ pre, exResWide.summary = pre ++ exPath) ∧
     runExit (runMain false exCities exPath exHeader [exRow]) = 0) :=
  ⟨by rfl,
   claim_C8_summary_report false exCities exPath exHeader [exRow] exResWide (by rfl)⟩

/-- C10: whatever city list the caller supplies, the target set never
contains the misspelled normalized form "san marcoc" (it is remapped to
"san marcos" before insertion); hence a row whose key cell normalizes to
"san marcoc" is never kept. -/
theorem claim_C10_misspelled_never_kept :
    (∀ cities : List (List Nat), sanMarcocKey ∉ buildTargets cities) ∧
    (∀ (cities : List (List Nat)) (regionIdx : Nat) (row : List (List Nat)),
       normalize_city (row.getD regionIdx []) = sanMarcocKey →
       rowKept regionIdx (buildTargets cities) row = false) := by
  have hnot : ∀ cities : List (List Nat), sanMarcocKey ∉ buildTargets cities := by
    intro cities hmem
    rcases List.mem_map.mp hmem with ⟨city, _, heq⟩
    unfold cityMapGet at heq
    by_cases hkey : normalize_city city = sanMarcocKey
    · rw [if_pos hkey] at heq
      exact absurd heq (by decide)
    · rw [if_neg hkey] at heq
      exact hkey heq
  refine ⟨hnot, ?_⟩
  intro cities regionIdx row hnorm
  unfold rowKept
  by_cases h : regionIdx < row.length
  · rw [if_pos h, hnorm]
    simpa using hnot cities
  · rw [if_neg h]

/-- Witness for C10: with the misspelled argument itself supplied, a row
whose key cell is "San Marcoc" is still not kept. -/
theorem claim_C10_misspelled_never_kept_witness :
    normalize_city ([strN "San Marcoc"].getD 0 []) = sanMarcocKey ∧
    rowKept 0 (buildTargets [strN "San Marcoc"]) [strN "San Marcoc"] = false :=
  ⟨by decide,
   claim_C10_misspelled_never_kept.2 [strN "San Marcoc"] 0 [strN "San Marcoc"]
     (by decide)⟩

/-- A filterMap keeps as many elements as the filter by definedness. -/
lemma length_filterMap_eq {α β : Type} (f : α → Option β) :
    ∀ l : List α,
      (l.filterMap f).length = (l.filter (fun x => (f x).isSome)).length
  | [] => rfl
  | a :: l => by
    have ih := length_filterMap_eq f l
    cases hf : f a with
    | none => simp [List.filterMap_cons, hf, List.filter_cons, ih]
    | some b => simp [List.filterMap_cons, hf, List.filter_cons, ih]

/-- A column emits an output row exactly when its value is nonempty. -/
lemma columnEmit_isSome (header : List (List Nat)) (dateStart : Nat)
    (row : List (List Nat)) (i : Nat) :
    (columnEmit header dateStart row i).isSome =
      decide ((if i < row.length then row.getD i [] else []) ≠ []) := by
  have hgen : ∀ v : List Nat,
      (if v = [] then (none : Option (List (List Nat)))
        else some (row.take dateStart ++ [header.getD i [], v])).isSome =
        decide (v ≠ []) := by
    intro v
    by_cases h : v = []
    · rw [if_pos h]
      simp [h]
    · rw [if_neg h]
      simp [h]
  exact hgen (if i < row.length then row.getD i [] else [])

/-- Shape of an emitted output row: metadata, header cell, nonempty value. -/
lemma columnEmit_some_shape (header : List (List Nat)) (dateStart : Nat)
    (row : List (List Nat)) (i : Nat) (out : List (List Nat))
    (h : columnEmit header dateStart row i = some out) :
    (if i < row.length then row.getD i [] else []) ≠ [] ∧
      out = row.take dateStart ++
        [header.getD i [], if i < row.length then row.getD i [] else []] := by
  have hgen : ∀ v : List Nat,
      (if v = [] then (none : Option (List (List Nat)))
        else some (row.take dateStart ++ [header.getD i [], v])) = some out →
      v ≠ [] ∧ out = row.take dateStart ++ [header.getD i [], v] := by
    intro v h2
    by_cases hv : v = []
    · rw [if_pos hv] at h2
      exact absurd h2 (by simp)
    · rw [if_neg hv] at h2
      injection h2 with h3
      exact ⟨hv, h3.symm⟩
  exact hgen (if i < row.length then row.getD i [] else []) h

/-- C2: in long mode, every kept row emits, in header order, one output
row per column index i in [date_start, len(header)) whose value
(row[i] if in range, else empty) is nonempty, that output row being
row[0:date_start] ++ [header[i], value]; the output row count is the sum
over kept rows of their nonempty date values, and no output row has an
empty Value field. -/
theorem claim_C2_long_mode_output (cities : List (List Nat))
    (outputPath : List Nat) (header : List (List Nat))
    (rows : List (List (List Nat))) (res : RunResult) (regionIdx dateStart : Nat)
    (hfind : header.findIdx? (fun col => col == regionNameCol) = some regionIdx)
    (hds : resolveDateStart header = some dateStart)
    (hrun : runMain true cities outputPath header rows = Except.ok res) :
    res.outRows = (rows.filter (rowKept regionIdx (buildTargets cities))).flatMap
        (fun row => ((List.range header.length).drop dateStart).filterMap
          (fun i =>
            if (if i < row.length then row.getD i [] else []) = [] then none
            else some (row.take dateStart ++
              [header.getD i [], if i < row.length then row.getD i [] else []]))) ∧
    res.outRows.length =
      ((rows.filter (rowKept regionIdx (buildTargets cities))).map
        (fun row => (((List.range header.length).drop dateStart).filter
          (fun i =>
            decide ((if i < row.length then row.getD i [] else []) ≠ []))).length)).sum ∧
    (∀ out ∈ res.outRows, out.getLast? ≠ some ([] : List Nat)) := by
  rw [runMain_long cities outputPath header rows regionIdx dateStart hfind hds] at hrun
  injection hrun with h2
  subst h2
  refine ⟨rfl, ?_, ?_⟩
  · show ((rows.filter (rowKept regionIdx (buildTargets cities))).flatMap
        (longRows header dateStart)).length = _
    rw [List.length_flatMap]
    congr 1
    apply List.map_congr_left
    intro row _
    show (((List.range header.length).drop dateStart).filterMap
        (columnEmit header dateStart row)).length = _
    rw [length_filterMap_eq]
    exact congrArg List.length
      (List.filter_congr (fun i _ => columnEmit_isSome header dateStart row i))
  · intro out hout
    have hout2 : out ∈ (rows.filter (rowKept regionIdx (buildTargets cities))).flatMap
        (longRows header dateStart) := hout
    rcases List.mem_flatMap.mp hout2 with ⟨row, _, hrow⟩
    unfold longRows at hrow
    rcases List.mem_filterMap.mp hrow with ⟨i, _, hcol⟩
    obtain ⟨hv, hshape⟩ := columnEmit_some_shape header dateStart row i out hcol
    rw [hshape]
    rw [show row.take dateStart ++
          [header.getD i [], if i < row.length then row.getD i [] else []] =
        (row.take dateStart ++ [header.getD i []]) ++
          [if i < row.length then row.getD i [] else []] by simp]
    rw [List.getLast?_concat]
    intro hcontra
    injection hcontra with h3
    exact hv h3

/-- Witness for C2 at the example input: two output rows, one per
nonempty date value of the single kept row. -/
theorem claim_C2_long_mode_output_witness :
    exHeader.findIdx? (fun col => col == regionNameCol) = some 0 ∧
    resolveDateStart exHeader = some 2 ∧
    runMain true exCities exPath exHeader [exRow] = Except.ok exResLong ∧
    exResLong.outRows.length =
      (([exRow].filter (rowKept 0 (buildTargets exCities))).map
        (fun row => (((List.range exHeader.length).drop 2).filter
          (fun i =>
            decide ((if i < row.length then row.getD i [] else []) ≠ []))).length)).sum :=
  ⟨by decide, by decide, by rfl,
   (claim_C2_long_mode_output exCities exPath exHeader [exRow] exResLong 0 2
      (by decide) (by decide) (by rfl)).2.1⟩
